import Mathlib

/-!
Verification of the student-account reconciliation engine (gsuite_setup).

The definitions below are a shallow embedding of the TypeScript sources:
`src/ou-manager.ts` (class `OUManager`), `src/sync-engine.ts` (class
`SyncEngine`) and the data model of `src/types.ts`.  JavaScript strings are
modelled by Lean `String` (character-wise; the sources only manipulate ASCII),
JavaScript numbers holding years by `Int`, `Map` objects by insertion-ordered
association lists with last-write-wins lookup, and `undefined`-able string
fields that the code only ever uses through `x || ''` by a plain `String`
with `""` for `undefined` (both are falsy, and the code never distinguishes
them).  Dates are reduced to the `(year, month)` pair, which is all the code
reads (`getFullYear()` / `getMonth() + 1`).
-/

namespace GsuiteSync

/-- ASCII lowercasing of one character, the fragment of JavaScript
`toLowerCase` the sources exercise (they only feed ASCII names, emails and
paths through it). -/
def charToLower (c : Char) : Char :=
  if 'A' ≤ c ∧ c ≤ 'Z' then Char.ofNat (c.toNat + 32) else c

/-- JavaScript `String.prototype.toLowerCase` on ASCII strings. -/
def jsToLower (s : String) : String :=
  (s.toList.map charToLower).asString

/-- Digits of a natural number, most significant first; the `fuel`
argument (always called with `n + 1`, an upper bound on the digit count)
only makes the recursion structural. -/
def natDigitsAux : Nat → Nat → List Char
  | 0, _ => []
  | fuel + 1, n =>
    if n < 10 then [Nat.digitChar n]
    else natDigitsAux fuel (n / 10) ++ [Nat.digitChar (n % 10)]

/-- JavaScript decimal rendering of a natural number (`${n}` template
interpolation). -/
def natToString (n : Nat) : String :=
  (natDigitsAux (n + 1) n).asString

/-- JavaScript decimal rendering of an integer (`${n}` template
interpolation). -/
def intToString (i : Int) : String :=
  if i < 0 then "-" ++ natToString (-i).toNat else natToString i.toNat

/-- Is `pat` a contiguous run of `l`? -/
def containsSub (pat : List Char) : List Char → Bool
  | [] => pat.isEmpty
  | c :: t => pat.isPrefixOf (c :: t) || containsSub pat t

/-- JavaScript `String.prototype.includes` (substring test). -/
def jsIncludes (s sub : String) : Bool :=
  containsSub sub.toList s.toList

/-- Last-write-wins lookup in an insertion-ordered association list; this is
the observable behaviour of `Map.prototype.get` after the sequence of
`Map.prototype.set` calls recorded in order (a later `set` of the same key
overwrites an earlier one, so the later entry wins). -/
def jsMapGet {α : Type} : List (String × α) → String → Option α
  | [], _ => none
  | p :: rest, k =>
    match jsMapGet rest k with
    | some v => some v
    | none => if p.1 = k then some p.2 else none

/-- `SchoolLevel` (`src/types.ts`). -/
inductive SchoolLevel where
  | elementary
  | middle
  | high
deriving DecidableEq, Repr

/-- The literal path segment each school level produces. -/
def SchoolLevel.str : SchoolLevel → String
  | .elementary => "elementary"
  | .middle => "middle"
  | .high => "high"

/-- Lifecycle status values of `Student.status` (`src/types.ts`). -/
inductive StudentStatus where
  | active
  | graduated
  | transferred
deriving DecidableEq, Repr

/-- The literal string each status corresponds to in the sources. -/
def StudentStatus.str : StudentStatus → String
  | .active => "active"
  | .graduated => "graduated"
  | .transferred => "transferred"

/-- `Student` (`src/types.ts`); only the fields the reconciliation engine
reads are modelled. -/
structure Student where
  studentId : String
  firstName : String
  lastName : String
  grade : String
  email : Option String := none
  graduationYear : Int
  enrollmentDate : Option String := none
  parentEmail : Option String := none
  status : Option StudentStatus := none
  deviceSerial : Option String := none
deriving DecidableEq, Repr

/-- One entry of `GoogleUser.externalIds` (`src/types.ts`). -/
structure ExternalId where
  value : String
  type : String
  customType : Option String := none
deriving DecidableEq, Repr

/-- `GoogleUser` (`src/types.ts`); only the fields the engine reads are
modelled.  `orgUnitPath` is optional in the source but every use is through
`user.orgUnitPath || ''` or the equally falsy-insensitive
`shouldMoveStudent`, so `""` stands for `undefined`. -/
structure GoogleUser where
  id : Option String := none
  primaryEmail : String
  givenName : String
  familyName : String
  suspended : Bool := false
  orgUnitPath : String := ""
  externalIds : List ExternalId := []
deriving DecidableEq, Repr

/-- `ChromeDevice` (`src/types.ts`); only the fields the engine reads.
`orgUnitPath = ""` stands for `undefined` (used only via `!==` against a
nonempty path and via `|| 'unknown'`). -/
structure ChromeDevice where
  deviceId : Option String := none
  serialNumber : Option String := none
  orgUnitPath : String := ""
deriving DecidableEq, Repr

/-- The evaluation date, reduced to what the code reads:
`getFullYear()` and `getMonth() + 1`. -/
structure DateYM where
  year : Int
  month : Int
deriving DecidableEq, Repr

/-- The current school year (`ou-manager.ts`, inside
`getSchoolLevelFromGradYear` / `calculateGraduationYear` /
`getStudentStatus`): before June it is the previous calendar year. -/
def currentSchoolYear (asOf : DateYM) : Int :=
  if asOf.month < 6 then asOf.year - 1 else asOf.year

/-- `OUManager.getSchoolLevelFromGradYear`, with the implicit `new Date()`
made an explicit parameter. -/
def getSchoolLevelFromGradYear (asOf : DateYM) (graduationYear : Int) : SchoolLevel :=
  let yearsUntilGraduation := graduationYear - currentSchoolYear asOf
  if yearsUntilGraduation ≤ 4 then .high
  else if yearsUntilGraduation ≤ 7 then .middle
  else .elementary

/-- Entry of `OUManager.gradeMapping`. -/
structure GradeInfo where
  schoolLevel : SchoolLevel
  gradeNumber : Int
deriving DecidableEq, Repr

/-- The entries of `OUManager.gradeMapping`, the fixed grade-code table
(`4K, K, 1..12`), in source order. -/
def gradeTable : List (String × GradeInfo) :=
  [("4K", ⟨.elementary, -1⟩),
   ("K", ⟨.elementary, 0⟩),
   ("1", ⟨.elementary, 1⟩),
   ("2", ⟨.elementary, 2⟩),
   ("3", ⟨.elementary, 3⟩),
   ("4", ⟨.elementary, 4⟩),
   ("5", ⟨.elementary, 5⟩),
   ("6", ⟨.middle, 6⟩),
   ("7", ⟨.middle, 7⟩),
   ("8", ⟨.middle, 8⟩),
   ("9", ⟨.high, 9⟩),
   ("10", ⟨.high, 10⟩),
   ("11", ⟨.high, 11⟩),
   ("12", ⟨.high, 12⟩)]

/-- `OUManager.gradeMapping[grade]`: lookup in the fixed table.  Lookup of
an unmapped code is `none` (the source then throws `Invalid grade`). -/
def gradeMapping (grade : String) : Option GradeInfo :=
  jsMapGet gradeTable grade

/-- `OUManager.calculateGraduationYear` (explicit `currentDate` parameter in
the source). -/
def calculateGraduationYear (asOf : DateYM) (grade : String) : Option Int :=
  (gradeMapping grade).map fun mapping =>
    currentSchoolYear asOf + (12 - mapping.gradeNumber) + 1

/-- `x.toLowerCase().replace(/[^a-z0-9]/g, '')` — lowercase then keep only
`[a-z0-9]`. -/
def cleanAlnum (s : String) : String :=
  ((s.toList.map charToLower).filter fun c =>
    ('a' ≤ c ∧ c ≤ 'z') ∨ ('0' ≤ c ∧ c ≤ '9')).asString

/-- `x.toLowerCase().replace(/[^a-z]/g, '')` — lowercase then keep only
`[a-z]`. -/
def cleanAlpha (s : String) : String :=
  ((s.toList.map charToLower).filter fun c => 'a' ≤ c ∧ c ≤ 'z').asString

/-- `OUManager.generateStudentOUName`. -/
def generateStudentOUName (student : Student) : String :=
  cleanAlnum student.firstName ++ "." ++ cleanAlnum student.lastName

/-- `OUManager.getStudentOUPath` (`baseStudentOU` is the `root` parameter). -/
def getStudentOUPath (root : String) (asOf : DateYM) (student : Student) : String :=
  root ++ "/" ++ (getSchoolLevelFromGradYear asOf student.graduationYear).str
    ++ "/" ++ intToString student.graduationYear
    ++ "/" ++ generateStudentOUName student

/-- `OUManager.generateEmailAddress` as it stands in `src/ou-manager.ts`:
two parameters, always the four-digit graduation year, no email
configuration. -/
def generateEmailAddress (student : Student) (domain : String) : String :=
  cleanAlpha student.firstName ++ "." ++ cleanAlpha student.lastName
    ++ intToString student.graduationYear ++ "@" ++ domain

/-- The `'two-digit' | 'four-digit'` union of
`EmailConfig.graduationYearFormat` (`src/types.ts`). -/
inductive YearFormat where
  | twoDigit
  | fourDigit
deriving DecidableEq, Repr

/-- `EmailConfig` (`src/types.ts`). -/
structure EmailConfig where
  graduationYearFormat : YearFormat
  separator : Option String := none
deriving DecidableEq, Repr

/-- Modelled from the spec: the email-format-aware `generateEmailAddress`
overload that `sync-engine.ts` calls with three arguments and that
`tests/ou-manager.test.ts` exercises, but which is absent from the
`ou-manager.ts` in the snapshot (its `generateEmailAddress` takes only two
parameters).  Per the spec: optional separator before the graduation-year
suffix, two-digit suffix takes the last two characters of the four-digit
year, and no configuration means the four-digit no-separator legacy
format. -/
def generateEmailAddressSpec (student : Student) (domain : String)
    (cfg : Option EmailConfig) : String :=
  let yearStr := intToString student.graduationYear
  let suffix :=
    match cfg with
    | some c =>
      match c.graduationYearFormat with
      | .twoDigit => (yearStr.toList.drop (yearStr.length - 2)).asString
      | .fourDigit => yearStr
    | none => yearStr
  let sep := (cfg.bind (·.separator)).getD ""
  cleanAlpha student.firstName ++ "." ++ cleanAlpha student.lastName
    ++ sep ++ suffix ++ "@" ++ domain

/-- Result type of `OUManager.parseOUPath`. -/
structure ParsedOUPath where
  schoolLevel : Option SchoolLevel := none
  graduationYear : Option Int := none
  studentId : Option String := none
deriving DecidableEq, Repr

/-- `OUManager.isValidSchoolLevel` combined with the cast the source performs
on the validated string. -/
def levelOfString (s : String) : Option SchoolLevel :=
  if s = "elementary" then some .elementary
  else if s = "middle" then some .middle
  else if s = "high" then some .high
  else none

/-- JavaScript `parseInt(s, 10)`: optional sign, then the longest decimal
digit run; no digits means `NaN` (modelled `none`).  Trailing garbage is
ignored, matching `parseInt`. -/
def jsParseInt (s : String) : Option Int :=
  match s.toList with
  | [] => none
  | c :: rest =>
    if c = '-' then (parseDigits rest).map fun n => -(n : Int)
    else if c = '+' then (parseDigits rest).map fun n => (n : Int)
    else (parseDigits (c :: rest)).map fun n => (n : Int)
where
  parseDigits (l : List Char) : Option Nat :=
    let ds := l.takeWhile Char.isDigit
    if ds.isEmpty then none
    else some (ds.foldl (fun acc c => 10 * acc + (c.toNat - '0'.toNat)) 0)

/-- JavaScript `String.prototype.split(sep)` for a one-character separator;
always returns at least one (possibly empty) part. -/
def splitOnChar (sep : Char) : List Char → List (List Char)
  | [] => [[]]
  | c :: rest =>
    let r := splitOnChar sep rest
    if c = sep then [] :: r
    else
      match r with
      | [] => [[c]]
      | h :: t => (c :: h) :: t

/-- `OUManager.parseOUPath` (`baseStudentOU` is the `root` parameter):
reject paths not prefixed by the root, split the remainder on `/`, drop
empty segments, then read school level, graduation year and leaf in order,
each only when present (and, for the level, valid; for the year,
parseable). -/
def parseOUPath (root : String) (ouPath : String) : ParsedOUPath :=
  if root.toList.isPrefixOf ouPath.toList then
    let relativePath := ouPath.toList.drop root.toList.length
    let parts := ((splitOnChar '/' relativePath).map List.asString).filter (· ≠ "")
    { schoolLevel := (parts.get? 0).bind levelOfString
      graduationYear := (parts.get? 1).bind jsParseInt
      studentId := parts.get? 2 }
  else {}

/-- `OUManager.shouldMoveStudent`; the `!currentOUPath` falsy test is the
`""` test under the `"" = undefined` convention. -/
def shouldMoveStudent (root : String) (asOf : DateYM) (student : Student)
    (currentOUPath : String) : Bool :=
  if currentOUPath = "" then true
  else currentOUPath ≠ getStudentOUPath root asOf student

/-- `OUManager.isStudentOU`. -/
def isStudentOU (root : String) (ouPath : String) : Bool :=
  root.toList.isPrefixOf ouPath.toList

/-- `OUManager.isActiveStudentOU`. -/
def isActiveStudentOU (root : String) (ouPath : String) : Bool :=
  isStudentOU root ouPath
    && !jsIncludes ouPath "hidden_aliases"
    && !jsIncludes ouPath "archived"
    && !jsIncludes ouPath "suspended"

/-- `OUManager.getStudentStatus`, with the implicit `new Date()` made an
explicit parameter. -/
def getStudentStatus (asOf : DateYM) (student : Student) : StudentStatus :=
  match student.status with
  | some s => s
  | none =>
    if student.graduationYear < asOf.year
        ∨ (student.graduationYear = asOf.year ∧ 6 ≤ asOf.month) then
      .graduated
    else .active

/-! ## SyncEngine data model (`src/types.ts`, `src/sync-engine.ts`) -/

/-- The `SyncAction.type` tag. -/
inductive ActionType where
  | create
  | move
  | deactivate
  | update
  | moveDevice
deriving DecidableEq, Repr

/-- `SyncAction` (`src/types.ts`). -/
structure SyncAction where
  type : ActionType
  student : Student
  currentUser : Option GoogleUser := none
  currentDevice : Option ChromeDevice := none
  targetOUPath : String
  reason : String
deriving DecidableEq, Repr

/-- `SyncResult` (`src/types.ts`); errors as their message strings. -/
structure SyncResult where
  success : Bool
  action : SyncAction
  error : Option String := none
deriving DecidableEq, Repr

/-- `PasswordConfig.type` (`src/types.ts`). -/
inductive PasswordType where
  | prefixStudentId
  | random
  | customFunction
deriving DecidableEq, Repr

/-- `PasswordConfig` (`src/types.ts`). -/
structure PasswordConfig where
  type : PasswordType
  prefixStr : Option String := none
  length : Option Nat := none
  includeUppercase : Option Bool := none
  includeLowercase : Option Bool := none
  includeNumbers : Option Bool := none
  includeSymbols : Option Bool := none
  customPattern : Option String := none
deriving DecidableEq, Repr

/-- The slice of `Config` (`src/types.ts`) the sync engine reads. -/
structure Config where
  maxConcurrentRequests : Nat
  requireConfirmationThreshold : Nat
  createOnly : Bool := false
  moveOnly : Bool := false
  deactivateOnly : Bool := false
  passwordConfig : Option PasswordConfig := none
  emailConfig : Option EmailConfig := none
  passwordPrefix : Option String := none
  googleDomain : String := ""
deriving DecidableEq, Repr

/-! ## Action planning (`SyncEngine.determineActions`,
`SyncEngine.addDeviceSyncActions`) -/

/-- The `studentsByEmail` map of `determineActions`, in insertion order;
`if (student.email)` skips both absent and empty (falsy) emails. -/
def studentsByEmail (students : List Student) : List (String × Student) :=
  students.filterMap fun s =>
    match s.email with
    | some e => if e = "" then none else some (jsToLower e, s)
    | none => none

/-- The `studentsByStudentId` map of `determineActions`. -/
def studentsByStudentId (students : List Student) : List (String × Student) :=
  students.map fun s => (s.studentId, s)

/-- The keys of `studentsByEmail`: the lowercased nonempty emails of the
roster, in roster order. -/
def emailKeys (students : List Student) : List String :=
  students.filterMap fun s =>
    match s.email with
    | some e => if e = "" then none else some (jsToLower e)
    | none => none

/-- `SyncEngine.findStudentByExternalId`: first `custom`/`student_id`
external id whose value is in the roster index; scanning continues past
misses. -/
def findStudentByExternalId (byId : List (String × Student)) :
    List ExternalId → Option Student
  | [] => none
  | e :: rest =>
    if e.type = "custom" ∧ e.customType = some "student_id" then
      match jsMapGet byId e.value with
      | some s => some s
      | none => findStudentByExternalId byId rest
    else findStudentByExternalId byId rest

/-- The matching step of the per-account loop:
`studentsByEmail.get(email) || findStudentByExternalId(user, byId)`. -/
def matchStudent (byEmail byId : List (String × Student)) (user : GoogleUser) :
    Option Student :=
  match jsMapGet byEmail (jsToLower user.primaryEmail) with
  | some s => some s
  | none => findStudentByExternalId byId user.externalIds

/-- `SyncEngine.createPlaceholderStudent`. -/
def createPlaceholderStudent (user : GoogleUser) : Student :=
  { studentId := user.id.getD "unknown"
    firstName := user.givenName
    lastName := user.familyName
    grade := "unknown"
    email := some user.primaryEmail
    graduationYear := 0 }

/-- The body of the per-account loop of `determineActions` (lines 175–219):
at most one action per observed account. -/
def userAction (root : String) (asOf : DateYM)
    (byEmail byId : List (String × Student)) (user : GoogleUser) :
    Option SyncAction :=
  match matchStudent byEmail byId user with
  | some student =>
    if getStudentStatus asOf student = .active then
      let targetOU := getStudentOUPath root asOf student
      if shouldMoveStudent root asOf student user.orgUnitPath then
        some { type := .move, student := student, currentUser := some user
               targetOUPath := targetOU
               reason := "Move from " ++ user.orgUnitPath ++ " to " ++ targetOU }
      else none
    else
      if !user.suspended then
        some { type := .deactivate, student := student, currentUser := some user
               targetOUPath := user.orgUnitPath
               reason := "Student " ++ (getStudentStatus asOf student).str }
      else none
  | none =>
    if isActiveStudentOU root user.orgUnitPath ∧ !user.suspended then
      some { type := .deactivate, student := createPlaceholderStudent user
             currentUser := some user, targetOUPath := user.orgUnitPath
             reason := "Not found in enrollment data" }
    else none

/-- The body of the per-roster loop of `determineActions` (lines 221–233):
`processedEmails` is the set of lowercased primary emails of every observed
account (an account adds its email whatever branch it takes). -/
def rosterCreate (root : String) (asOf : DateYM) (processedEmails : List String)
    (student : Student) : Option SyncAction :=
  match student.email with
  | some e =>
    if getStudentStatus asOf student = .active ∧ e ≠ ""
        ∧ jsToLower e ∉ processedEmails then
      some { type := .create, student := student
             targetOUPath := getStudentOUPath root asOf student
             reason := "New student" }
    else none
  | none => none

/-- The body of the device loop (`SyncEngine.addDeviceSyncActions`): skip
students without a (truthy) serial, skip serials missing from the device
snapshot, skip non-active students, emit a move only when the device's
current path differs from the student's target path. -/
def deviceAction (root : String) (asOf : DateYM)
    (existingDevices : List (String × ChromeDevice)) (student : Student) :
    Option SyncAction :=
  match student.deviceSerial with
  | none => none
  | some serial =>
    if serial = "" then none
    else
      match jsMapGet existingDevices serial with
      | none => none
      | some device =>
        if getStudentStatus asOf student ≠ .active then none
        else
          let targetOUPath := getStudentOUPath root asOf student
          if device.orgUnitPath ≠ targetOUPath then
            some { type := .moveDevice, student := student
                   currentDevice := some device, targetOUPath := targetOUPath
                   reason := "Move device from "
                     ++ (if device.orgUnitPath = "" then "unknown"
                         else device.orgUnitPath)
                     ++ " to " ++ targetOUPath }
          else none

/-- `processedEmails` as populated by the per-account loop before the
per-roster loop runs. -/
def processedEmails (existingUsers : List GoogleUser) : List String :=
  existingUsers.map fun u => jsToLower u.primaryEmail

/-- `SyncEngine.determineActions` before the mode filter: the per-account
pass, then the per-roster pass, then the device pass, each pushing in
iteration order. -/
def determineActionsCore (root : String) (asOf : DateYM)
    (students : List Student) (existingUsers : List GoogleUser)
    (existingDevices : List (String × ChromeDevice)) : List SyncAction :=
  existingUsers.filterMap
      (userAction root asOf (studentsByEmail students) (studentsByStudentId students))
    ++ students.filterMap (rosterCreate root asOf (processedEmails existingUsers))
    ++ students.filterMap (deviceAction root asOf existingDevices)

/-- `SyncEngine.determineActions`: the three passes followed by the
mode filter (`createOnly` / `moveOnly` / `deactivateOnly`, in that
precedence). -/
def determineActions (cfg : Config) (root : String) (asOf : DateYM)
    (students : List Student) (existingUsers : List GoogleUser)
    (existingDevices : List (String × ChromeDevice)) : List SyncAction :=
  let actions := determineActionsCore root asOf students existingUsers existingDevices
  if cfg.createOnly then actions.filter (·.type = .create)
  else if cfg.moveOnly then actions.filter (·.type = .move)
  else if cfg.deactivateOnly then actions.filter (·.type = .deactivate)
  else actions

/-! ## Password generation (`SyncEngine.generatePassword` and helpers) -/

/-- `SyncEngine.buildCharacterSet`: uppercase, lowercase and digits default
on (`!== false`), symbols default off (truthy test). -/
def buildCharacterSet (cfg : PasswordConfig) : String :=
  (if cfg.includeUppercase ≠ some false then "ABCDEFGHIJKLMNOPQRSTUVWXYZ" else "")
    ++ (if cfg.includeLowercase ≠ some false then "abcdefghijklmnopqrstuvwxyz" else "")
    ++ (if cfg.includeNumbers ≠ some false then "0123456789" else "")
    ++ (if cfg.includeSymbols = some true then "!@#$%^&*()_+-=[]\x7b\x7d|;:,.<>?" else "")

/-- `SyncEngine.generatePrefixStudentIdPassword`: strip non-digits, keep the
last four (`slice(-4)`), left-pad with zeros to four (`padStart(4, '0')`),
prepend the configured or default prefix. -/
def generatePrefixStudentIdPassword (studentId : String) (cfg : PasswordConfig) :
    String :=
  let numericPart := studentId.toList.filter Char.isDigit
  let last4 := numericPart.drop (numericPart.length - 4)
  let padded := List.replicate (4 - last4.length) '0' ++ last4
  cfg.prefixStr.getD "lh00" ++ padded.asString

/-- `SyncEngine.generateRandomPassword`, with `Math.random` abstracted into
the `pick` oracle; throws (models as `Except.error`) when every character
class is disabled. -/
def generateRandomPassword (pick : Nat → Nat) (cfg : PasswordConfig) :
    Except String String :=
  let len := cfg.length.getD 12
  let chars := buildCharacterSet cfg
  if chars.length = 0 then
    .error "No character sets enabled for random password generation"
  else
    .ok ((List.range len).map
      (fun i => chars.toList.getD (pick i % chars.length) 'a')).asString

/-- JavaScript `String.prototype.replace` with a plain-string pattern:
replaces only the first occurrence. -/
def jsReplaceFirst (s pat rep : String) : String :=
  match s.splitOn pat with
  | [] => s
  | [x] => x
  | x :: y :: t => x ++ rep ++ String.intercalate pat (y :: t)

/-- `SyncEngine.generateCustomPatternPassword`. -/
def generateCustomPatternPassword (student : Student) (cfg : PasswordConfig) :
    Except String String :=
  match cfg.customPattern with
  | none => .error "Custom pattern not provided for custom_function password type"
  | some pat =>
    .ok (jsReplaceFirst (jsReplaceFirst (jsReplaceFirst (jsReplaceFirst
          (jsReplaceFirst (jsReplaceFirst pat
            "{firstName}" (jsToLower student.firstName))
            "{lastName}" (jsToLower student.lastName))
            "{studentId}" student.studentId)
            "{graduationYear}" (intToString student.graduationYear))
            "{firstInitial}" (jsToLower (student.firstName.toList.take 1).asString))
            "{lastInitial}" (jsToLower (student.lastName.toList.take 1).asString))

/-- `SyncEngine.generatePassword`: dispatch on the configured strategy,
falling back to prefix+student-id with the legacy `passwordPrefix` (default
`"lh00"`) when no strategy is configured. -/
def generatePassword (cfg : Config) (pick : Nat → Nat) (student : Student) :
    Except String String :=
  match cfg.passwordConfig with
  | some pc =>
    match pc.type with
    | .prefixStudentId => .ok (generatePrefixStudentIdPassword student.studentId pc)
    | .random => generateRandomPassword pick pc
    | .customFunction => generateCustomPatternPassword student pc
  | none =>
    .ok (generatePrefixStudentIdPassword student.studentId
      { type := .prefixStudentId, prefixStr := some (cfg.passwordPrefix.getD "lh00") })

/-! ## Execution (`SyncEngine.executeActions`, `SyncEngine.executeAction`).
Directory calls are abstracted into an `api` oracle giving the outcome of
the one client call each handler makes; every other step of the handlers is
modelled directly. -/

/-- The five handlers (`createUser`, `moveUser`, `deactivateUser`,
`updateUser`, `moveDevice`): each validates its inputs (throwing the
source's message on a missing `currentUser` / `currentDevice`), for
`create` first derives the email (when absent) and the password — the point
where a password configuration error is raised — and then performs its one
directory call, whose outcome `api` supplies. -/
def runHandler (cfg : Config) (api : SyncAction → Except String Unit)
    (pick : Nat → Nat) (action : SyncAction) : Except String Unit :=
  match action.type with
  | .create => do
    let _password ← generatePassword cfg pick action.student
    api action
  | .move =>
    match action.currentUser with
    | none => .error "Current user not provided for move action"
    | some _ => api action
  | .deactivate =>
    match action.currentUser with
    | none => .error "Current user not provided for deactivate action"
    | some _ => api action
  | .update =>
    match action.currentUser with
    | none => .error "Current user not provided for update action"
    | some _ => api action
  | .moveDevice =>
    match action.currentDevice with
    | none => .error "Current device or device ID not provided for move device action"
    | some d =>
      if d.deviceId.isNone then
        .error "Current device or device ID not provided for move device action"
      else api action

/-- `SyncEngine.executeAction`: the try/catch wrapper that turns any thrown
error into a failed `SyncResult` for that action alone. -/
def executeAction (cfg : Config) (api : SyncAction → Except String Unit)
    (pick : Nat → Nat) (action : SyncAction) : SyncResult :=
  match runHandler cfg api pick action with
  | .ok _ => { success := true, action := action }
  | .error e => { success := false, action := action, error := some e }

/-- The batching loop of `SyncEngine.executeActions`: take `batchSize`
actions, run them, append their results in submission order, continue with
the rest.  A `batchSize` of zero never advances in the source (the loop
index never moves); it is modelled as producing no results. -/
def executeBatchesAux (f : SyncAction → SyncResult) (batchSize : Nat) :
    Nat → List SyncAction → List SyncResult
  | _, [] => []
  | 0, _ :: _ => []
  | fuel + 1, a :: rest =>
    if batchSize = 0 then []
    else
      ((a :: rest).take batchSize).map f
        ++ executeBatchesAux f batchSize fuel ((a :: rest).drop batchSize)

/-- The batching loop, started with enough fuel (the list length bounds the
number of batches) for the fuel never to run out when `batchSize ≠ 0`. -/
def executeBatches (f : SyncAction → SyncResult) (batchSize : Nat)
    (actions : List SyncAction) : List SyncResult :=
  executeBatchesAux f batchSize actions.length actions

/-- `SyncEngine.executeActions`. -/
def executeActions (cfg : Config) (api : SyncAction → Except String Unit)
    (pick : Nat → Nat) (actions : List SyncAction) : List SyncResult :=
  executeBatches (executeAction cfg api pick) cfg.maxConcurrentRequests actions

/-! ## Bulk-deactivation gate and summary (`SyncEngine.sync`) -/

/-- Outcome of the pre-execution gate in `SyncEngine.sync` (lines 63–70):
whether `confirmBulkDeactivation` was invoked, and which actions reach
`executeActions` (none when the confirmation is denied — `sync` returns the
empty summary). -/
structure GateResult where
  confirmationRequested : Bool
  executed : List SyncAction
deriving DecidableEq, Repr

/-- The bulk-deactivation gate of `SyncEngine.sync`: count `deactivate`
actions; above the threshold ask for external confirmation (`approved` is
the answer `confirmBulkDeactivation` returns) and abort everything on
denial; otherwise execute directly. -/
def bulkDeactivationGate (threshold : Nat) (approved : Bool)
    (actions : List SyncAction) : GateResult :=
  let deactivateCount := (actions.filter (·.type = .deactivate)).length
  if deactivateCount > threshold then
    if approved then { confirmationRequested := true, executed := actions }
    else { confirmationRequested := true, executed := [] }
  else { confirmationRequested := false, executed := actions }

/-- The counters of `SyncSummary` (`src/types.ts`) that the result loop in
`SyncEngine.sync` (lines 74–96) maintains. -/
structure SummaryCounts where
  totalProcessed : Nat := 0
  created : Nat := 0
  moved : Nat := 0
  deactivated : Nat := 0
  updated : Nat := 0
  errors : Nat := 0
deriving DecidableEq, Repr

/-- One iteration of the result loop in `SyncEngine.sync`: every result
bumps `totalProcessed`; a success bumps the counter of its action type —
except `move_device`, which has no case in the switch; a failure bumps
`errors`. -/
def stepSummary (s : SummaryCounts) (r : SyncResult) : SummaryCounts :=
  let s := { s with totalProcessed := s.totalProcessed + 1 }
  if r.success then
    match r.action.type with
    | .create => { s with created := s.created + 1 }
    | .move => { s with moved := s.moved + 1 }
    | .deactivate => { s with deactivated := s.deactivated + 1 }
    | .update => { s with updated := s.updated + 1 }
    | .moveDevice => s
  else { s with errors := s.errors + 1 }

/-- The whole result loop of `SyncEngine.sync` over the executor's
results. -/
def summarize (results : List SyncResult) : SummaryCounts :=
  results.foldl stepSummary {}

/-! ## Faithful application of a plan to the two snapshots.

These definitions model the idempotence hypothesis: a second snapshot
obtained from the first by carrying out every action of the first plan.
A created account is the account `SyncEngine.createUser` constructs
(restricted to the fields the planner reads): at its target path,
unsuspended, with the student's email and a `custom`/`student_id` external
identifier.  A moved account sits at its target path; a deactivated account
is suspended; a moved device sits at its target path. -/

/-- The directory account a `create` action for `student` materialises as
(the `newUser` object of `SyncEngine.createUser`, restricted to the fields
the planner reads; `create` actions are only emitted for students with a
nonempty email, so `getD` never applies). -/
def createdUser (student : Student) (targetOUPath : String) : GoogleUser :=
  { primaryEmail := student.email.getD ""
    givenName := student.firstName
    familyName := student.lastName
    suspended := false
    orgUnitPath := targetOUPath
    externalIds := [{ value := student.studentId, type := "custom"
                      customType := some "student_id" }] }

/-- Carry out on one observed account the single action the per-account
pass emits for it: a move lands it at the target path, a deactivation
suspends it, anything else leaves it unchanged. -/
def applyAccountAction (root : String) (asOf : DateYM)
    (byEmail byId : List (String × Student)) (user : GoogleUser) : GoogleUser :=
  match userAction root asOf byEmail byId user with
  | some a =>
    match a.type with
    | .move => { user with orgUnitPath := a.targetOUPath }
    | .deactivate => { user with suspended := true }
    | _ => user
  | none => user

/-- The account snapshot after faithfully applying every account action of
the plan: each observed account updated per its own action, and one new
account per `create` action. -/
def applyPlanUsers (root : String) (asOf : DateYM) (students : List Student)
    (existingUsers : List GoogleUser) : List GoogleUser :=
  existingUsers.map
      (applyAccountAction root asOf (studentsByEmail students) (studentsByStudentId students))
    ++ (students.filterMap (rosterCreate root asOf (processedEmails existingUsers))).map
        (fun a => createdUser a.student a.targetOUPath)

/-- Carry out a list of `move_device` actions on the device snapshot: each
action lands the device with its student's serial at the action's target
path. -/
def applyDeviceActions (devices : List (String × ChromeDevice)) :
    List SyncAction → List (String × ChromeDevice)
  | [] => devices
  | a :: rest =>
    let devices :=
      if a.type = .moveDevice then
        devices.map fun p =>
          if p.1 = a.student.deviceSerial.getD "" then
            (p.1, { p.2 with orgUnitPath := a.targetOUPath })
          else p
      else devices
    applyDeviceActions devices rest

/-- The device snapshot after faithfully applying every device action of
the plan. -/
def applyPlanDevices (root : String) (asOf : DateYM) (students : List Student)
    (devices : List (String × ChromeDevice)) : List (String × ChromeDevice) :=
  applyDeviceActions devices (students.filterMap (deviceAction root asOf devices))

/-- Height of a school level in the elementary → middle → high progression,
used to state monotonicity. -/
def SchoolLevel.rank : SchoolLevel → Nat
  | .elementary => 0
  | .middle => 1
  | .high => 2

/-- The student of the spec's email-derivation example. -/
def johnDoe : Student :=
  { studentId := "STU001", firstName := "John", lastName := "Doe"
    grade := "9", graduationYear := 2028 }

/-! Concrete fixtures used by counterexamples and witnesses. -/

/-- A directory-client oracle whose every call succeeds. -/
def apiOk : SyncAction → Except String Unit := fun _ => .ok ()

/-- A degenerate randomness oracle (always picks index 0). -/
def pick0 : Nat → Nat := fun _ => 0

/-- A configuration with no optional feature enabled. -/
def cfgDefault : Config :=
  { maxConcurrentRequests := 10, requireConfirmationThreshold := 10 }

/-- A `random` password strategy with every character class disabled. -/
def pcAllOff : PasswordConfig :=
  { type := .random
    includeUppercase := some false, includeLowercase := some false
    includeNumbers := some false, includeSymbols := some false }

/-- A configuration whose password strategy is `random` with every
character class disabled. -/
def cfgAllClassesOff : Config :=
  { maxConcurrentRequests := 10, requireConfirmationThreshold := 10
    passwordConfig := some pcAllOff }

/-- A roster record whose lifecycle status is `graduated`. -/
def gradStudent : Student :=
  { studentId := "S1", firstName := "Jane", lastName := "Roe", grade := "12"
    graduationYear := 2020, email := some "jane.roe2020@school.edu"
    status := some .graduated }

/-- The unsuspended directory account matching `gradStudent` by email. -/
def gradUser : GoogleUser :=
  { primaryEmail := "jane.roe2020@school.edu", givenName := "Jane"
    familyName := "Roe", suspended := false
    orgUnitPath := "/org/student/high/2020/jane.roe" }

/-- A well-formed `deactivate` action (used by executor fixtures). -/
def deactActionW : SyncAction :=
  { type := .deactivate, student := gradStudent, currentUser := some gradUser
    targetOUPath := gradUser.orgUnitPath, reason := "Student graduated" }

/-- A well-formed `create` action (used by executor fixtures). -/
def createActionW : SyncAction :=
  { type := .create, student := johnDoe
    targetOUPath := "/org/student/high/2028/john.doe", reason := "New student" }

/-- John Doe with his school email present (used by planner fixtures). -/
def johnDoeEmail : Student :=
  { johnDoe with email := some "john.doe2028@school.edu" }

/-- Two active roster records sharing one email but with different names
(used by the planner-idempotence counterexample). -/
def dupA : Student :=
  { studentId := "A1", firstName := "Ann", lastName := "Lee", grade := "9"
    graduationYear := 2030, email := some "ann@school.edu"
    status := some .active }

/-- See `dupA`. -/
def dupB : Student :=
  { studentId := "B2", firstName := "Bob", lastName := "Kim", grade := "9"
    graduationYear := 2030, email := some "ann@school.edu"
    status := some .active }

/-- A well-formed `move_device` action (used by summary fixtures). -/
def moveDeviceActionW : SyncAction :=
  { type := .moveDevice, student := johnDoe
    currentDevice := some { deviceId := some "D1", serialNumber := some "CHR001"
                            orgUnitPath := "/somewhere" }
    targetOUPath := "/org/student/high/2028/john.doe"
    reason := "Move device from /somewhere to /org/student/high/2028/john.doe" }

/-!
# Helper lemmas about the JavaScript-map model
-/

theorem jsMapGet_mem {α : Type} {pairs : List (String × α)} {k : String}
    {v : α} (h : jsMapGet pairs k = some v) : (k, v) ∈ pairs := by
  induction pairs with
  | nil => exact absurd h (by simp [jsMapGet])
  | cons p rest ih =>
    simp only [jsMapGet] at h
    cases hrec : jsMapGet rest k with
    | some w =>
      rw [hrec] at h
      injection h with h
      subst h
      exact List.mem_cons_of_mem p (ih hrec)
    | none =>
      rw [hrec] at h
      split_ifs at h with hk
      injection h with h
      subst h
      cases p
      simp only at hk
      subst hk
      exact List.mem_cons_self _ _

/-- In an association list whose keys are distinct, lookup finds exactly
the unique entry. -/
theorem jsMapGet_of_nodup {α : Type} {pairs : List (String × α)} {k : String}
    {v : α} (hnd : (pairs.map Prod.fst).Nodup) (hmem : (k, v) ∈ pairs) :
    jsMapGet pairs k = some v := by
  induction pairs with
  | nil => exact absurd hmem (by simp)
  | cons p rest ih =>
    simp only [List.map_cons, List.nodup_cons] at hnd
    rcases List.mem_cons.1 hmem with hp | hrest
    · subst hp
      simp only [jsMapGet]
      cases hrec : jsMapGet rest k with
      | some w =>
        exact absurd (List.mem_map_of_mem Prod.fst (jsMapGet_mem hrec)) hnd.1
      | none => simp
    · simp only [jsMapGet, ih hnd.2 hrest]

/-- Updating all entries under one key leaves lookups at other keys
untouched. -/
theorem jsMapGet_update_other {α : Type} (pairs : List (String × α))
    (k0 sn : String) (g : α → α) (hne : k0 ≠ sn) :
    jsMapGet (pairs.map fun p => if p.1 = k0 then (p.1, g p.2) else p) sn
      = jsMapGet pairs sn := by
  induction pairs with
  | nil => rfl
  | cons p rest ih =>
    simp only [List.map_cons, jsMapGet, ih]
    cases hrec : jsMapGet rest sn with
    | some w => rfl
    | none =>
      by_cases hp : p.1 = k0
      · rw [if_pos hp]
        simp only []
        rw [if_neg (by rw [hp]; exact hne), if_neg (by rw [hp]; exact hne)]
      · rw [if_neg hp]

/-- Updating all entries under one key maps the lookup at that key. -/
theorem jsMapGet_update_self {α : Type} (pairs : List (String × α))
    (k0 : String) (g : α → α) :
    jsMapGet (pairs.map fun p => if p.1 = k0 then (p.1, g p.2) else p) k0
      = (jsMapGet pairs k0).map g := by
  induction pairs with
  | nil => rfl
  | cons p rest ih =>
    simp only [List.map_cons, jsMapGet, ih]
    cases hrec : jsMapGet rest k0 with
    | some w => rfl
    | none =>
      simp only [Option.map_none']
      by_cases hp : p.1 = k0
      · rw [if_pos hp]
        simp only []
        rw [if_pos hp, if_pos hp]
        rfl
      · rw [if_neg hp, if_neg hp]
        rfl

/-!
# Theorems
-/

/-- C4: for every graduation year and evaluation date, with the school year
turning over in June, the derived level is high iff at most 4 years remain,
middle iff 5–7 remain, elementary otherwise; the +4/+5/+8 boundary values
land on high/middle/elementary; and as years-until-graduation shrinks the
level never moves backward in the elementary → middle → high order. -/
theorem school_level_classification (asOf : DateYM) (y : Int) :
    (asOf.month < 6 → currentSchoolYear asOf = asOf.year - 1)
    ∧ (6 ≤ asOf.month → currentSchoolYear asOf = asOf.year)
    ∧ (getSchoolLevelFromGradYear asOf y = .high ↔ y - currentSchoolYear asOf ≤ 4)
    ∧ (getSchoolLevelFromGradYear asOf y = .middle ↔
        5 ≤ y - currentSchoolYear asOf ∧ y - currentSchoolYear asOf ≤ 7)
    ∧ (getSchoolLevelFromGradYear asOf y = .elementary ↔
        7 < y - currentSchoolYear asOf)
    ∧ getSchoolLevelFromGradYear asOf (currentSchoolYear asOf + 4) = .high
    ∧ getSchoolLevelFromGradYear asOf (currentSchoolYear asOf + 5) = .middle
    ∧ getSchoolLevelFromGradYear asOf (currentSchoolYear asOf + 8) = .elementary
    ∧ ∀ y2, y ≤ y2 →
        (getSchoolLevelFromGradYear asOf y2).rank
          ≤ (getSchoolLevelFromGradYear asOf y).rank := by
  refine ⟨fun h => by simp [currentSchoolYear, h], fun h => by
    simp only [currentSchoolYear]
    rw [if_neg (by omega)], ?_, ?_, ?_, ?_, ?_, ?_, ?_⟩
  · simp only [getSchoolLevelFromGradYear]
    split_ifs with h1 h2 <;> simp <;> omega
  · simp only [getSchoolLevelFromGradYear]
    split_ifs with h1 h2 <;> simp <;> omega
  · simp only [getSchoolLevelFromGradYear]
    split_ifs with h1 h2 <;> simp <;> omega
  · simp only [getSchoolLevelFromGradYear]
    rw [if_pos (by omega)]
  · simp only [getSchoolLevelFromGradYear]
    rw [if_neg (by omega), if_pos (by omega)]
  · simp only [getSchoolLevelFromGradYear]
    rw [if_neg (by omega), if_neg (by omega)]
  · intro y2 hle
    simp only [getSchoolLevelFromGradYear]
    split_ifs <;> simp [SchoolLevel.rank] <;> omega

/-- Closed witness for `school_level_classification` at a concrete date and
year, with each hypothesis discharged. -/
theorem school_level_classification_witness :
    getSchoolLevelFromGradYear ⟨2024, 9⟩ 2028 = .high
    ∧ (getSchoolLevelFromGradYear ⟨2024, 9⟩ 2032).rank
        ≤ (getSchoolLevelFromGradYear ⟨2024, 9⟩ 2028).rank := by
  have h := school_level_classification ⟨2024, 9⟩ 2028
  exact ⟨(h.2.2.1).2 (by decide), h.2.2.2.2.2.2.2.2 2032 (by decide)⟩

set_option maxHeartbeats 1600000 in
/-- C6: every grade code of the fixed table, converted to a graduation year
by `calculateGraduationYear` at any date, is mapped back by the
graduation-year-based derivation at the same date to exactly the school
level the table assigns. -/
theorem grade_table_agreement (g : String) (info : GradeInfo) (asOf : DateYM)
    (h : gradeMapping g = some info) :
    ∃ y, calculateGraduationYear asOf g = some y
      ∧ getSchoolLevelFromGradYear asOf y = info.schoolLevel := by
  have hy : calculateGraduationYear asOf g
      = some (currentSchoolYear asOf + (12 - info.gradeNumber) + 1) := by
    unfold calculateGraduationYear
    rw [h]
    rfl
  refine ⟨currentSchoolYear asOf + (12 - info.gradeNumber) + 1, hy, ?_⟩
  have hmem : (g, info) ∈ gradeTable := jsMapGet_mem h
  fin_cases hmem <;>
    · simp only [getSchoolLevelFromGradYear]
      split_ifs <;> first | rfl | omega

/-- Closed witness for `grade_table_agreement` at grade code `"9"`. -/
theorem grade_table_agreement_witness :
    ∃ y, calculateGraduationYear ⟨2024, 9⟩ "9" = some y
      ∧ getSchoolLevelFromGradYear ⟨2024, 9⟩ y = SchoolLevel.high := by
  exact grade_table_agreement "9" ⟨.high, 9⟩ ⟨2024, 9⟩ (by decide)

/-- C2: the email-derivation function in `ou-manager.ts` takes no email
configuration and always yields the four-digit format, so for John/Doe/2028
it returns `john.doe2028@school.edu` whatever the configuration — while the
repository's own `tests/ou-manager.test.ts`, its caller in `sync-engine.ts`
and `EmailConfig` in `types.ts` require `john.doe.28@school.edu` under the
two-digit `'.'` configuration.  The spec-modelled configurable function
meets all three expectations of the claim. -/
theorem email_derivation_code_vs_spec :
    generateEmailAddress johnDoe "school.edu" = "john.doe2028@school.edu"
    ∧ generateEmailAddressSpec johnDoe "school.edu"
        (some { graduationYearFormat := .twoDigit, separator := some "." })
        = "john.doe.28@school.edu"
    ∧ generateEmailAddressSpec johnDoe "school.edu"
        (some { graduationYearFormat := .fourDigit })
        = "john.doe2028@school.edu"
    ∧ generateEmailAddressSpec johnDoe "school.edu" none
        = "john.doe2028@school.edu" := by
  refine ⟨?_, ?_, ?_, ?_⟩ <;> rfl

/-!
## Summary counters (C10)
-/

theorem stepSummary_counts (s : SummaryCounts) (r : SyncResult) :
    (stepSummary s r).totalProcessed = s.totalProcessed + 1
    ∧ (stepSummary s r).errors = s.errors + (if r.success = false then 1 else 0)
    ∧ (stepSummary s r).created + (stepSummary s r).moved
        + (stepSummary s r).deactivated + (stepSummary s r).updated
        + (stepSummary s r).errors
        + (if r.success = true ∧ r.action.type = .moveDevice then 1 else 0)
      = s.created + s.moved + s.deactivated + s.updated + s.errors + 1 := by
  cases hs : r.success <;> cases ht : r.action.type <;>
    simp [stepSummary, hs, ht] <;> omega

theorem summarize_counts_aux (l : List SyncResult) : ∀ init : SummaryCounts,
    (l.foldl stepSummary init).totalProcessed = init.totalProcessed + l.length
    ∧ (l.foldl stepSummary init).errors
        = init.errors + (l.filter fun r => r.success = false).length
    ∧ (l.foldl stepSummary init).created + (l.foldl stepSummary init).moved
        + (l.foldl stepSummary init).deactivated + (l.foldl stepSummary init).updated
        + (l.foldl stepSummary init).errors
        + (l.filter fun r => r.success = true ∧ r.action.type = .moveDevice).length
      = init.created + init.moved + init.deactivated + init.updated + init.errors
        + l.length := by
  induction l with
  | nil => intro init; simp
  | cons r t ih =>
    intro init
    obtain ⟨h1, h2, h3⟩ := ih (stepSummary init r)
    obtain ⟨g1, g2, g3⟩ := stepSummary_counts init r
    have hc1 : ((r :: t).filter fun x => x.success = false).length
        = (if r.success = false then 1 else 0)
          + (t.filter fun x => x.success = false).length := by
      by_cases hp : r.success = false <;> simp [List.filter_cons, hp] <;> omega
    have hc2 : ((r :: t).filter fun x =>
          x.success = true ∧ x.action.type = .moveDevice).length
        = (if r.success = true ∧ r.action.type = .moveDevice then 1 else 0)
          + (t.filter fun x =>
              x.success = true ∧ x.action.type = .moveDevice).length := by
      by_cases hp : r.success = true ∧ r.action.type = .moveDevice <;>
        simp [List.filter_cons, hp] <;> omega
    refine ⟨?_, ?_, ?_⟩
    · simp only [List.foldl_cons, List.length_cons]
      omega
    · simp only [List.foldl_cons]
      rw [hc1]
      omega
    · simp only [List.foldl_cons, List.length_cons]
      rw [hc2]
      omega

/-- C10: the executed-run summary counts every result in `totalProcessed`
and every failure in `errors`, but a successful `move_device` result bumps
no per-kind counter (the switch in `SyncEngine.sync` has no `move_device`
case), so created + moved + deactivated + updated + errors never exceeds
`totalProcessed` and falls strictly short as soon as one `move_device`
action succeeds. -/
theorem summary_counter_invariant (results : List SyncResult) :
    (summarize results).totalProcessed = results.length
    ∧ (summarize results).errors
        = (results.filter fun r => r.success = false).length
    ∧ (summarize results).created + (summarize results).moved
        + (summarize results).deactivated + (summarize results).updated
        + (summarize results).errors ≤ (summarize results).totalProcessed
    ∧ ((∃ r ∈ results, r.success = true ∧ r.action.type = .moveDevice) →
        (summarize results).created + (summarize results).moved
          + (summarize results).deactivated + (summarize results).updated
          + (summarize results).errors < (summarize results).totalProcessed) := by
  obtain ⟨h1, h2, h3⟩ := summarize_counts_aux results {}
  have e0 : ({} : SummaryCounts) = ⟨0, 0, 0, 0, 0, 0⟩ := rfl
  rw [e0] at h1 h2 h3
  dsimp only at h1 h2 h3
  simp only [summarize, e0]
  refine ⟨by simpa using h1, by simpa using h2, by omega, ?_⟩
  intro ⟨r, hr, hs, ht⟩
  have hmem : r ∈ results.filter fun r =>
      r.success = true ∧ r.action.type = .moveDevice :=
    List.mem_filter.2 ⟨hr, by simp [hs, ht]⟩
  have hpos : 0 < (results.filter fun r =>
      r.success = true ∧ r.action.type = .moveDevice).length :=
    List.length_pos.2 (List.ne_nil_of_mem hmem)
  omega

/-- Closed witness for `summary_counter_invariant` on a run with one
successful `move_device` result: the per-kind counters sum to strictly less
than `totalProcessed`. -/
theorem summary_counter_invariant_witness :
    (summarize [{ success := true, action := moveDeviceActionW }]).created
      + (summarize [{ success := true, action := moveDeviceActionW }]).moved
      + (summarize [{ success := true, action := moveDeviceActionW }]).deactivated
      + (summarize [{ success := true, action := moveDeviceActionW }]).updated
      + (summarize [{ success := true, action := moveDeviceActionW }]).errors
      < (summarize [{ success := true, action := moveDeviceActionW }]).totalProcessed := by
  exact (summary_counter_invariant [{ success := true, action := moveDeviceActionW }]).2.2.2
    ⟨{ success := true, action := moveDeviceActionW }, by simp, rfl, rfl⟩

/-!
## Bulk-deactivation gate (C7)
-/

/-- C7: when the plan's `deactivate` count strictly exceeds the configured
threshold, execution is gated on the external confirmation — denial means
nothing (in particular no deactivation) reaches the executor; at or below
the threshold no confirmation is requested and the whole plan proceeds
directly. -/
theorem bulk_deactivation_gate_spec (threshold : Nat) (approved : Bool)
    (actions : List SyncAction) :
    ((actions.filter (·.type = .deactivate)).length > threshold →
      (bulkDeactivationGate threshold approved actions).confirmationRequested = true
      ∧ (approved = false →
          (bulkDeactivationGate threshold approved actions).executed = [])
      ∧ (approved = true →
          (bulkDeactivationGate threshold approved actions).executed = actions))
    ∧ ((actions.filter (·.type = .deactivate)).length ≤ threshold →
        (bulkDeactivationGate threshold approved actions).confirmationRequested = false
        ∧ (bulkDeactivationGate threshold approved actions).executed = actions) := by
  unfold bulkDeactivationGate
  constructor
  · intro hgt
    rw [if_pos hgt]
    cases approved <;> simp
  · intro hle
    rw [if_neg (by omega)]
    exact ⟨rfl, rfl⟩

/-- Closed witness for `bulk_deactivation_gate_spec`: two deactivations
against a threshold of one, denied, executes nothing; against a threshold
of five it proceeds without requesting confirmation. -/
theorem bulk_deactivation_gate_witness :
    (bulkDeactivationGate 1 false [deactActionW, deactActionW]).executed = []
    ∧ (bulkDeactivationGate 5 false [deactActionW, deactActionW]).confirmationRequested
        = false := by
  refine ⟨((bulk_deactivation_gate_spec 1 false [deactActionW, deactActionW]).1
    (by decide)).2.1 rfl, ?_⟩
  exact ((bulk_deactivation_gate_spec 5 false [deactActionW, deactActionW]).2
    (by decide)).1

/-!
## Executor shape, ordering and error isolation (C8)
-/

theorem executeBatchesAux_eq_map (f : SyncAction → SyncResult) (bs : Nat)
    (hbs : bs ≠ 0) :
    ∀ fuel acts, acts.length ≤ fuel →
      executeBatchesAux f bs fuel acts = acts.map f := by
  intro fuel
  induction fuel with
  | zero =>
    intro acts h
    have : acts = [] := List.eq_nil_of_length_eq_zero (Nat.le_zero.1 h)
    subst this
    rfl
  | succ n ih =>
    intro acts h
    cases acts with
    | nil => rfl
    | cons a rest =>
      simp only [executeBatchesAux]
      rw [if_neg hbs]
      have hlen : ((a :: rest).drop bs).length ≤ n := by
        simp only [List.length_drop, List.length_cons]
        simp only [List.length_cons] at h
        omega
      rw [ih _ hlen, ← List.map_append, List.take_append_drop]

/-- C8: for every positive concurrency limit the executor returns exactly
the per-action results, one per submitted action and in submission order
(batches concatenated sequentially); each result carries its own action,
and a handler error is captured in that action's failed result without
touching any other result. -/
theorem executor_results (cfg : Config) (api : SyncAction → Except String Unit)
    (pick : Nat → Nat) (actions : List SyncAction)
    (hc : 0 < cfg.maxConcurrentRequests) :
    executeActions cfg api pick actions
        = actions.map (executeAction cfg api pick)
    ∧ (∀ a, (executeAction cfg api pick a).action = a)
    ∧ (∀ a e, runHandler cfg api pick a = .error e →
        executeAction cfg api pick a
          = { success := false, action := a, error := some e })
    ∧ (∀ a, runHandler cfg api pick a = .ok () →
        executeAction cfg api pick a = { success := true, action := a }) := by
  refine ⟨?_, ?_, ?_, ?_⟩
  · unfold executeActions executeBatches
    exact executeBatchesAux_eq_map _ _ (by omega) _ _ le_rfl
  · intro a
    unfold executeAction
    cases runHandler cfg api pick a <;> rfl
  · intro a e h
    unfold executeAction
    rw [h]
  · intro a h
    unfold executeAction
    rw [h]

/-- Closed witness for `executor_results` on a two-action list under the
default configuration. -/
theorem executor_results_witness :
    executeActions cfgDefault apiOk pick0 [deactActionW, createActionW]
      = [deactActionW, createActionW].map (executeAction cfgDefault apiOk pick0) :=
  (executor_results cfgDefault apiOk pick0 [deactActionW, createActionW]
    (by decide)).1

/-!
## Password configuration errors (C3)
-/

/-- C3 counterexample to the claimed fatality: with the all-classes-disabled
random strategy, a two-action run still executes — the deactivation
succeeds and gets a result, and the creation's configuration error is
merely captured in its own per-action result.  This contradicts "raised
before any action executes — no action is performed and no per-action
result is recorded". -/
theorem config_error_not_fatal :
    executeActions cfgAllClassesOff apiOk pick0 [deactActionW, createActionW]
      = [{ success := true, action := deactActionW },
         { success := false, action := createActionW
           error := some "No character sets enabled for random password generation" }] := by
  rfl

/-- C3 (amended): with the `random` strategy and all character classes
disabled, the configuration error surfaces while a `create` action
executes, captured as that action's failed result; actions of every other
kind run exactly as they would without the password configuration. -/
theorem random_password_error_per_action (cfg : Config) (pc : PasswordConfig)
    (hpc : cfg.passwordConfig = some pc) (ht : pc.type = .random)
    (hu : pc.includeUppercase = some false) (hl : pc.includeLowercase = some false)
    (hn : pc.includeNumbers = some false) (hsym : pc.includeSymbols = some false)
    (api : SyncAction → Except String Unit) (pick : Nat → Nat) :
    (∀ a, a.type = .create →
      executeAction cfg api pick a =
        { success := false, action := a
          error := some "No character sets enabled for random password generation" })
    ∧ (∀ a, a.type ≠ .create →
        executeAction cfg api pick a
          = executeAction { cfg with passwordConfig := none } api pick a) := by
  have hcs : buildCharacterSet pc = "" := by
    simp [buildCharacterSet, hu, hl, hn, hsym]
  have hgen : ∀ st, generatePassword cfg pick st
      = .error "No character sets enabled for random password generation" := by
    intro st
    simp only [generatePassword, hpc, ht, generateRandomPassword, hcs]
    rfl
  have hrun : ∀ a, a.type = .create → runHandler cfg api pick a
      = .error "No character sets enabled for random password generation" := by
    intro a ha
    simp only [runHandler, ha]
    rw [hgen a.student]
    rfl
  refine ⟨fun a ha => ?_, fun a ha => ?_⟩
  · unfold executeAction
    rw [hrun a ha]
  · have hsame : runHandler cfg api pick a
        = runHandler { cfg with passwordConfig := none } api pick a := by
      cases htype : a.type
      · exact absurd htype ha
      all_goals simp only [runHandler, htype]
    unfold executeAction
    rw [hsame]

/-- Closed witness for `random_password_error_per_action` at the concrete
all-classes-disabled configuration and the fixture `create` action. -/
theorem random_password_error_per_action_witness :
    executeAction cfgAllClassesOff apiOk pick0 createActionW =
      { success := false, action := createActionW
        error := some "No character sets enabled for random password generation" } :=
  (random_password_error_per_action cfgAllClassesOff pcAllOff rfl rfl rfl rfl rfl rfl
    apiOk pick0).1 createActionW rfl

/-!
## Deactivation of graduated students (C9)
-/

/-- C9 counterexample to the claimed reason string: the single `deactivate`
action the planner emits for a graduated, unsuspended, matched account
carries the reason `"Student graduated"`, not `"graduated"` (the source
interpolates `Student ${status}`). -/
theorem deactivate_reason_counterexample :
    (determineActionsCore "/org/student" ⟨2024, 9⟩ [gradStudent] [gradUser] []).map
        (fun a => (a.type, a.reason))
      = [(.deactivate, "Student graduated")]
    ∧ "Student graduated" ≠ "graduated" := by
  exact ⟨rfl, by decide⟩

/-- C9 (amended): every observed account matched to a roster record whose
computed status is `graduated` and that is not already suspended receives
from the per-account pass exactly one action — a `Deactivate` carrying that
account, that student, the account's current path and the reason
`"Student graduated"`.  (The plan's account pass is
`existingUsers.filterMap userAction`, so each occurrence of the account
contributes exactly this one action.) -/
theorem deactivate_graduated (root : String) (asOf : DateYM)
    (students : List Student) (u : GoogleUser) (st : Student)
    (hmatch : matchStudent (studentsByEmail students) (studentsByStudentId students) u
      = some st)
    (hstatus : getStudentStatus asOf st = .graduated)
    (hsusp : u.suspended = false) :
    userAction root asOf (studentsByEmail students) (studentsByStudentId students) u
      = some { type := .deactivate, student := st, currentUser := some u
               targetOUPath := u.orgUnitPath, reason := "Student graduated" } := by
  simp only [userAction, hmatch, hstatus, hsusp]
  rfl

/-- Closed witness for `deactivate_graduated` at the concrete graduated
student and matching unsuspended account. -/
theorem deactivate_graduated_witness :
    userAction "/org/student" ⟨2024, 9⟩ (studentsByEmail [gradStudent])
        (studentsByStudentId [gradStudent]) gradUser
      = some { type := .deactivate, student := gradStudent
               currentUser := some gradUser
               targetOUPath := gradUser.orgUnitPath
               reason := "Student graduated" } :=
  deactivate_graduated "/org/student" ⟨2024, 9⟩ [gradStudent] gradUser gradStudent
    (by rfl) (by rfl) rfl

/-!
## Path round-trip (C5): supporting lemmas
-/

theorem toList_append (s t : String) : (s ++ t).toList = s.toList ++ t.toList :=
  String.data_append s t

theorem asString_toList (s : String) : s.toList.asString = s := rfl

theorem toList_asString (l : List Char) : l.asString.toList = l := rfl

theorem isPrefixOf_append_self (l r : List Char) : l.isPrefixOf (l ++ r) = true := by
  induction l with
  | nil => simp [List.isPrefixOf]
  | cons c t ih => simp [List.isPrefixOf, ih]

theorem splitOnChar_sep_cons (sep : Char) (rest : List Char) :
    splitOnChar sep (sep :: rest) = [] :: splitOnChar sep rest := by
  simp [splitOnChar]

theorem splitOnChar_append (sep : Char) (A : List Char) :
    ∀ rest, (∀ c ∈ A, c ≠ sep) →
      splitOnChar sep (A ++ sep :: rest) = A :: splitOnChar sep rest := by
  induction A with
  | nil => intro rest _; simpa using splitOnChar_sep_cons sep rest
  | cons a t ih =>
    intro rest hA
    have ha : a ≠ sep := hA a (by simp)
    have ih2 := ih rest fun c hc => hA c (by simp [hc])
    simp only [List.cons_append, splitOnChar, List.append_eq]
    rw [if_neg ha, ih2]

theorem splitOnChar_nosep (sep : Char) (N : List Char) (hN : ∀ c ∈ N, c ≠ sep) :
    splitOnChar sep N = [N] := by
  induction N with
  | nil => rfl
  | cons a t ih =>
    have ha : a ≠ sep := hN a (by simp)
    have ih2 := ih fun c hc => hN c (by simp [hc])
    simp only [splitOnChar]
    rw [if_neg ha, ih2]

theorem digitChar_isDigit : ∀ n < 10, (Nat.digitChar n).isDigit = true := by decide

theorem digitChar_val : ∀ n < 10, (Nat.digitChar n).toNat - '0'.toNat = n := by decide

theorem natDigitsAux_ne_nil (fuel n : Nat) : natDigitsAux (fuel + 1) n ≠ [] := by
  simp only [natDigitsAux]
  split_ifs <;> simp

theorem natDigitsAux_digits (fuel : Nat) :
    ∀ n < fuel, ∀ c ∈ natDigitsAux fuel n, c.isDigit = true := by
  induction fuel with
  | zero => intro n h; exact absurd h (Nat.not_lt_zero n)
  | succ f ih =>
    intro n hn c hc
    simp only [natDigitsAux] at hc
    by_cases h10 : n < 10
    · rw [if_pos h10] at hc
      simp only [List.mem_singleton] at hc
      subst hc
      exact digitChar_isDigit n h10
    · rw [if_neg h10] at hc
      rcases List.mem_append.1 hc with h1 | h2
      · exact ih (n / 10) (by omega) c h1
      · simp only [List.mem_singleton] at h2
        subst h2
        exact digitChar_isDigit (n % 10) (by omega)

theorem natDigitsAux_foldl (fuel : Nat) : ∀ n < fuel, ∀ init : Nat,
    (natDigitsAux fuel n).foldl (fun acc c => 10 * acc + (c.toNat - '0'.toNat)) init
      = init * 10 ^ (natDigitsAux fuel n).length + n := by
  induction fuel with
  | zero => intro n h; exact absurd h (Nat.not_lt_zero n)
  | succ f ih =>
    intro n hn init
    by_cases h10 : n < 10
    · simp only [natDigitsAux, if_pos h10, List.foldl_cons, List.foldl_nil,
        List.length_singleton]
      rw [digitChar_val n h10]
      ring
    · simp only [natDigitsAux, if_neg h10, List.foldl_append, List.length_append,
        List.foldl_cons, List.foldl_nil, List.length_singleton]
      rw [ih (n / 10) (by omega) init]
      rw [digitChar_val (n % 10) (by omega)]
      have hpow : 10 ^ ((natDigitsAux f (n / 10)).length + 1)
          = 10 ^ (natDigitsAux f (n / 10)).length * 10 := pow_succ 10 _
      rw [hpow]
      have := Nat.div_add_mod n 10
      generalize (10 : Nat) ^ (natDigitsAux f (n / 10)).length = k at *
      ring_nf
      omega

theorem takeWhile_all {α : Type} (p : α → Bool) (l : List α)
    (h : ∀ c ∈ l, p c = true) : l.takeWhile p = l := by
  induction l with
  | nil => rfl
  | cons a t ih =>
    rw [List.takeWhile_cons, if_pos (h a (by simp))]
    rw [ih fun c hc => h c (by simp [hc])]

theorem parseDigits_natDigits (m : Nat) :
    jsParseInt.parseDigits (natDigitsAux (m + 1) m) = some m := by
  have hall := natDigitsAux_digits (m + 1) m (by omega)
  have hne := natDigitsAux_ne_nil m m
  unfold jsParseInt.parseDigits
  rw [takeWhile_all Char.isDigit _ hall]
  rw [if_neg (by simpa [List.isEmpty_iff] using hne)]
  rw [natDigitsAux_foldl (m + 1) m (by omega) 0]
  simp

theorem jsParseInt_natToString (m : Nat) : jsParseInt (natToString m) = some (m : Int) := by
  have hne := natDigitsAux_ne_nil m m
  unfold natToString jsParseInt
  cases hd : natDigitsAux (m + 1) m with
  | nil => exact absurd hd hne
  | cons c cs =>
    have hc : c.isDigit = true :=
      natDigitsAux_digits (m + 1) m (by omega) c (by rw [hd]; simp)
    have hcm : c ≠ '-' := fun h => by subst h; exact absurd hc (by decide)
    have hcp : c ≠ '+' := fun h => by subst h; exact absurd hc (by decide)
    simp only [toList_asString, hd]
    rw [if_neg hcm, if_neg hcp, ← hd, parseDigits_natDigits m]
    rfl

theorem intToString_pos (y : Int) (hy : 0 < y) :
    intToString y = natToString y.toNat := by
  unfold intToString
  rw [if_neg (by omega)]

theorem jsParseInt_intToString (y : Int) (hy : 0 < y) :
    jsParseInt (intToString y) = some y := by
  rw [intToString_pos y hy, jsParseInt_natToString]
  congr 1
  exact Int.toNat_of_nonneg (by omega)

theorem levelOfString_str (lv : SchoolLevel) : levelOfString lv.str = some lv := by
  cases lv <;> rfl

theorem str_ne_empty (lv : SchoolLevel) : lv.str ≠ "" := by
  cases lv <;> decide

theorem str_no_slash (lv : SchoolLevel) : ∀ c ∈ lv.str.toList, c ≠ '/' := by
  cases lv <;> decide

theorem natToString_no_slash (m : Nat) : ∀ c ∈ (natToString m).toList, c ≠ '/' := by
  intro c hc heq
  have hdig := natDigitsAux_digits (m + 1) m (by omega) c hc
  subst heq
  exact absurd hdig (by decide)

theorem natToString_ne_empty (m : Nat) : natToString m ≠ "" := by
  intro h
  exact natDigitsAux_ne_nil m m (congrArg String.toList h)

theorem cleanAlnum_no_slash (s : String) : ∀ c ∈ (cleanAlnum s).toList, c ≠ '/' := by
  intro c hc heq
  subst heq
  have hp := List.of_mem_filter hc
  exact absurd hp (by decide)

theorem leaf_toList (st : Student) :
    (generateStudentOUName st).toList
      = (cleanAlnum st.firstName).toList ++ '.' :: (cleanAlnum st.lastName).toList := by
  unfold generateStudentOUName
  simp [toList_append]

theorem leaf_no_slash (st : Student) :
    ∀ c ∈ (generateStudentOUName st).toList, c ≠ '/' := by
  intro c hc
  rw [leaf_toList] at hc
  rcases List.mem_append.1 hc with h1 | h2
  · exact cleanAlnum_no_slash _ c h1
  · rcases List.mem_cons.1 h2 with h3 | h4
    · subst h3; decide
    · exact cleanAlnum_no_slash _ c h4

theorem leaf_ne_empty (st : Student) : generateStudentOUName st ≠ "" := by
  intro h
  have h2 := congrArg String.toList h
  rw [leaf_toList] at h2
  exact absurd h2 (by simp)

/-- C5: (1) parsing the derived organizational path of any student with a
positive graduation year recovers exactly the school level, the graduation
year, and the normalized-name leaf that built it, for every configured
root and date; (2) parsing any path not prefixed by the configured root
yields the empty result. -/
theorem path_roundtrip :
    (∀ (root : String) (asOf : DateYM) (st : Student),
      0 < st.graduationYear →
      parseOUPath root (getStudentOUPath root asOf st)
        = { schoolLevel := some (getSchoolLevelFromGradYear asOf st.graduationYear)
            graduationYear := some st.graduationYear
            studentId := some (generateStudentOUName st) })
    ∧ (∀ root p : String, root.toList.isPrefixOf p.toList = false →
        parseOUPath root p = {}) := by
  constructor
  · intro root asOf st hy
    have hpath : (getStudentOUPath root asOf st).toList
        = root.toList
          ++ '/' :: ((getSchoolLevelFromGradYear asOf st.graduationYear).str.toList
          ++ '/' :: ((intToString st.graduationYear).toList
          ++ '/' :: (generateStudentOUName st).toList)) := by
      unfold getStudentOUPath
      simp [toList_append, List.append_assoc]
    have hYs : intToString st.graduationYear = natToString st.graduationYear.toNat :=
      intToString_pos _ hy
    have hYnoslash : ∀ c ∈ (intToString st.graduationYear).toList, c ≠ '/' := by
      rw [hYs]; exact natToString_no_slash _
    have hYne : intToString st.graduationYear ≠ "" := by
      rw [hYs]; exact natToString_ne_empty _
    simp only [parseOUPath]
    rw [hpath]
    rw [if_pos (isPrefixOf_append_self _ _)]
    rw [List.drop_left]
    rw [splitOnChar_sep_cons]
    rw [splitOnChar_append '/' _ _ (str_no_slash _)]
    rw [splitOnChar_append '/' _ _ hYnoslash]
    rw [splitOnChar_nosep '/' _ (leaf_no_slash st)]
    simp only [List.map_cons, List.map_nil, asString_toList]
    rw [show ([] : List Char).asString = "" from rfl]
    simp [List.filter_cons, str_ne_empty, hYne, leaf_ne_empty st, levelOfString_str,
      jsParseInt_intToString _ hy]
  · intro root p h
    simp only [parseOUPath]
    rw [if_neg (by rw [h]; exact Bool.false_ne_true)]

/-- Closed witness for `path_roundtrip`: the round trip at John Doe under
the default root, and rejection of a path under the wrong root. -/
theorem path_roundtrip_witness :
    parseOUPath "/org/student" (getStudentOUPath "/org/student" ⟨2024, 9⟩ johnDoe)
      = { schoolLevel := some (getSchoolLevelFromGradYear ⟨2024, 9⟩ johnDoe.graduationYear)
          graduationYear := some johnDoe.graduationYear
          studentId := some (generateStudentOUName johnDoe) }
    ∧ parseOUPath "/test" "/org/student/high/2028/john.doe" = {} := by
  refine ⟨path_roundtrip.1 "/org/student" ⟨2024, 9⟩ johnDoe (by decide), ?_⟩
  exact path_roundtrip.2 "/test" "/org/student/high/2028/john.doe" (by decide)

/-!
## Planner idempotence (C1): supporting lemmas
-/

theorem studentsByEmail_keys (students : List Student) :
    (studentsByEmail students).map Prod.fst = emailKeys students := by
  induction students with
  | nil => rfl
  | cons s t ih =>
    simp only [studentsByEmail, emailKeys, List.filterMap_cons] at ih ⊢
    cases he : s.email with
    | none => exact ih
    | some e =>
      by_cases hee : e = ""
      · simp only [if_pos hee]
        exact ih
      · simp only [if_neg hee, List.map_cons, ih]

theorem matchStudent_set_path (byE byI : List (String × Student)) (u : GoogleUser)
    (p : String) :
    matchStudent byE byI { u with orgUnitPath := p } = matchStudent byE byI u := rfl

theorem matchStudent_set_susp (byE byI : List (String × Student)) (u : GoogleUser)
    (b : Bool) :
    matchStudent byE byI { u with suspended := b } = matchStudent byE byI u := rfl

theorem studentOUPath_ne_empty (root : String) (asOf : DateYM) (st : Student) :
    getStudentOUPath root asOf st ≠ "" := by
  intro h
  have h2 := congrArg String.toList h
  simp only [getStudentOUPath, toList_append] at h2
  simp at h2

theorem shouldMove_self (root : String) (asOf : DateYM) (st : Student) :
    shouldMoveStudent root asOf st (getStudentOUPath root asOf st) = false := by
  unfold shouldMoveStudent
  rw [if_neg (studentOUPath_ne_empty root asOf st)]
  simp

theorem applyAccount_primaryEmail (root : String) (asOf : DateYM)
    (byE byI : List (String × Student)) (u : GoogleUser) :
    (applyAccountAction root asOf byE byI u).primaryEmail = u.primaryEmail := by
  unfold applyAccountAction
  cases userAction root asOf byE byI u with
  | none => rfl
  | some a =>
    obtain ⟨ty, st, cu, cd, tp, rs⟩ := a
    cases ty <;> rfl

/-- One observed account, after its own action of the plan is carried out,
generates no action on the next planning pass. -/
theorem userAction_applyAccount_none (root : String) (asOf : DateYM)
    (byE byI : List (String × Student)) (u : GoogleUser) :
    userAction root asOf byE byI (applyAccountAction root asOf byE byI u) = none := by
  cases hm : matchStudent byE byI u with
  | some st =>
    by_cases hst : getStudentStatus asOf st = .active
    · by_cases hmv : shouldMoveStudent root asOf st u.orgUnitPath = true
      · have hact : userAction root asOf byE byI u
            = some { type := .move, student := st, currentUser := some u
                     targetOUPath := getStudentOUPath root asOf st
                     reason := "Move from " ++ u.orgUnitPath ++ " to "
                       ++ getStudentOUPath root asOf st } := by
          simp only [userAction, hm]
          rw [if_pos hst, if_pos hmv]
        have hv : applyAccountAction root asOf byE byI u
            = { u with orgUnitPath := getStudentOUPath root asOf st } := by
          unfold applyAccountAction
          rw [hact]
        rw [hv]
        simp only [userAction, matchStudent_set_path, hm]
        rw [if_pos hst]
        rw [if_neg (by simp [shouldMove_self])]
      · have hact : userAction root asOf byE byI u = none := by
          simp only [userAction, hm]
          rw [if_pos hst, if_neg hmv]
        have hv : applyAccountAction root asOf byE byI u = u := by
          unfold applyAccountAction
          rw [hact]
        rw [hv]
        exact hact
    · by_cases hsu : u.suspended = true
      · have hact : userAction root asOf byE byI u = none := by
          simp only [userAction, hm]
          rw [if_neg hst, if_neg (by rw [hsu]; simp)]
        have hv : applyAccountAction root asOf byE byI u = u := by
          unfold applyAccountAction
          rw [hact]
        rw [hv]
        exact hact
      · have hsu2 : u.suspended = false := Bool.eq_false_iff.2 hsu
        have hact : userAction root asOf byE byI u
            = some { type := .deactivate, student := st, currentUser := some u
                     targetOUPath := u.orgUnitPath
                     reason := "Student " ++ (getStudentStatus asOf st).str } := by
          simp only [userAction, hm]
          rw [if_neg hst, if_pos (by rw [hsu2]; rfl)]
        have hv : applyAccountAction root asOf byE byI u
            = { u with suspended := true } := by
          unfold applyAccountAction
          rw [hact]
        rw [hv]
        simp only [userAction, matchStudent_set_susp, hm]
        rw [if_neg hst]
        simp
  | none =>
    by_cases hcond : isActiveStudentOU root u.orgUnitPath = true ∧ (!u.suspended) = true
    · have hact : userAction root asOf byE byI u
          = some { type := .deactivate, student := createPlaceholderStudent u
                   currentUser := some u, targetOUPath := u.orgUnitPath
                   reason := "Not found in enrollment data" } := by
        simp only [userAction, hm]
        rw [if_pos hcond]
      have hv : applyAccountAction root asOf byE byI u
          = { u with suspended := true } := by
        unfold applyAccountAction
        rw [hact]
      rw [hv]
      simp only [userAction, matchStudent_set_susp, hm]
      simp
    · have hact : userAction root asOf byE byI u = none := by
        simp only [userAction, hm]
        rw [if_neg hcond]
      have hv : applyAccountAction root asOf byE byI u = u := by
        unfold applyAccountAction
        rw [hact]
      rw [hv]
      exact hact

theorem rosterCreate_inv {root : String} {asOf : DateYM} {P : List String}
    {st : Student} {a : SyncAction} (h : rosterCreate root asOf P st = some a) :
    ∃ e, st.email = some e ∧ getStudentStatus asOf st = .active ∧ e ≠ ""
      ∧ jsToLower e ∉ P
      ∧ a = { type := .create, student := st
              targetOUPath := getStudentOUPath root asOf st
              reason := "New student" } := by
  cases he : st.email with
  | none =>
    simp only [rosterCreate, he] at h
    exact absurd h (by simp)
  | some e =>
    simp only [rosterCreate, he] at h
    split_ifs at h with hcond
    · injection h with h
      exact ⟨e, rfl, hcond.1, hcond.2.1, hcond.2.2, h.symm⟩

/-- A freshly created account — at its target path, unsuspended, carrying
the student's email — generates no action on the next planning pass, as
long as roster emails are pairwise distinct after lowercasing. -/
theorem userAction_created_none (root : String) (asOf : DateYM)
    (students : List Student) (hem : (emailKeys students).Nodup)
    (st : Student) (hmem : st ∈ students) (e : String) (he : st.email = some e)
    (hene : e ≠ "") (hact : getStudentStatus asOf st = .active) :
    userAction root asOf (studentsByEmail students) (studentsByStudentId students)
      (createdUser st (getStudentOUPath root asOf st)) = none := by
  have hkey : (jsToLower e, st) ∈ studentsByEmail students :=
    List.mem_filterMap.2 ⟨st, hmem, by rw [he]; simp [hene]⟩
  have hnd : ((studentsByEmail students).map Prod.fst).Nodup := by
    rw [studentsByEmail_keys]
    exact hem
  have hget : jsMapGet (studentsByEmail students) (jsToLower e) = some st :=
    jsMapGet_of_nodup hnd hkey
  have hpe : (createdUser st (getStudentOUPath root asOf st)).primaryEmail = e := by
    simp [createdUser, he]
  have hmatch : matchStudent (studentsByEmail students) (studentsByStudentId students)
      (createdUser st (getStudentOUPath root asOf st)) = some st := by
    unfold matchStudent
    rw [hpe, hget]
  simp only [userAction, hmatch]
  rw [if_pos hact]
  rw [if_neg (by simp [createdUser, shouldMove_self])]

theorem processedEmails_apply (root : String) (asOf : DateYM)
    (students : List Student) (users : List GoogleUser) :
    processedEmails (applyPlanUsers root asOf students users)
      = processedEmails users
        ++ ((students.filterMap (rosterCreate root asOf (processedEmails users))).map
            fun a => jsToLower (createdUser a.student a.targetOUPath).primaryEmail) := by
  unfold processedEmails applyPlanUsers
  rw [List.map_append, List.map_map, List.map_map]
  congr 1
  exact List.map_congr_left fun u _ => by
    simp [Function.comp, applyAccount_primaryEmail]

/-- After the plan is applied, no roster record triggers a creation: its
email is now among the observed accounts' emails (either it already was, or
the plan's own `create` put it there). -/
theorem rosterCreate_after_apply (root : String) (asOf : DateYM)
    (students : List Student) (users : List GoogleUser)
    (st : Student) (hmem : st ∈ students) :
    rosterCreate root asOf
      (processedEmails (applyPlanUsers root asOf students users)) st = none := by
  cases he : st.email with
  | none => simp only [rosterCreate, he]
  | some e =>
    simp only [rosterCreate, he]
    rw [if_neg]
    rintro ⟨hact, hene, hnotin⟩
    apply hnotin
    rw [processedEmails_apply]
    by_cases hp1 : jsToLower e ∈ processedEmails users
    · exact List.mem_append_left _ hp1
    · apply List.mem_append_right
      have hcr : rosterCreate root asOf (processedEmails users) st
          = some { type := .create, student := st
                   targetOUPath := getStudentOUPath root asOf st
                   reason := "New student" } := by
        simp only [rosterCreate, he]
        rw [if_pos ⟨hact, hene, hp1⟩]
      refine List.mem_map.2 ⟨_, List.mem_filterMap.2 ⟨st, hmem, hcr⟩, ?_⟩
      simp [createdUser, he]

theorem applyDeviceActions_append (l1 l2 : List SyncAction) :
    ∀ devices, applyDeviceActions devices (l1 ++ l2)
      = applyDeviceActions (applyDeviceActions devices l1) l2 := by
  induction l1 with
  | nil => intro devices; rfl
  | cons a t ih =>
    intro devices
    simp only [List.cons_append, applyDeviceActions]
    exact ih _

theorem applyDeviceActions_get_skip (sn : String) (acts : List SyncAction) :
    ∀ devices : List (String × ChromeDevice),
      (∀ a ∈ acts, a.type = .moveDevice → a.student.deviceSerial.getD "" ≠ sn) →
      jsMapGet (applyDeviceActions devices acts) sn = jsMapGet devices sn := by
  induction acts with
  | nil => intro devices _; rfl
  | cons a rest ih =>
    intro devices h
    simp only [applyDeviceActions]
    by_cases ht : a.type = .moveDevice
    · rw [if_pos ht]
      rw [ih _ fun b hb hbt => h b (List.mem_cons_of_mem a hb) hbt]
      exact jsMapGet_update_other devices _ sn
        (fun d => { d with orgUnitPath := a.targetOUPath })
        (h a (List.mem_cons_self a rest) ht)
    · rw [if_neg ht]
      exact ih _ fun b hb hbt => h b (List.mem_cons_of_mem a hb) hbt

theorem applyDeviceActions_get_cons_hit (devices : List (String × ChromeDevice))
    (a : SyncAction) (rest : List SyncAction) (sn : String)
    (ht : a.type = .moveDevice) (hk : a.student.deviceSerial.getD "" = sn)
    (hrest : ∀ b ∈ rest, b.type = .moveDevice → b.student.deviceSerial.getD "" ≠ sn) :
    jsMapGet (applyDeviceActions devices (a :: rest)) sn
      = (jsMapGet devices sn).map fun d => { d with orgUnitPath := a.targetOUPath } := by
  simp only [applyDeviceActions]
  rw [if_pos ht]
  rw [applyDeviceActions_get_skip sn rest _ hrest]
  rw [← hk]
  exact jsMapGet_update_self devices (a.student.deviceSerial.getD "")
    (fun d => { d with orgUnitPath := a.targetOUPath })

theorem deviceAction_inv {root : String} {asOf : DateYM}
    {devices : List (String × ChromeDevice)} {s : Student} {a : SyncAction}
    (h : deviceAction root asOf devices s = some a) :
    a.type = .moveDevice ∧ a.student = s
      ∧ ∃ sn d, s.deviceSerial = some sn ∧ sn ≠ ""
          ∧ jsMapGet devices sn = some d
          ∧ getStudentStatus asOf s = .active
          ∧ a.targetOUPath = getStudentOUPath root asOf s := by
  cases hser : s.deviceSerial with
  | none =>
    simp only [deviceAction, hser] at h
    exact absurd h (by simp)
  | some sn =>
    simp only [deviceAction, hser] at h
    by_cases h1 : sn = ""
    · rw [if_pos h1] at h
      exact absurd h (by simp)
    · rw [if_neg h1] at h
      cases hd : jsMapGet devices sn with
      | none =>
        simp only [hd] at h
        exact absurd h (by simp)
      | some d =>
        simp only [hd] at h
        by_cases h2 : getStudentStatus asOf s ≠ .active
        · rw [if_pos h2] at h
          exact absurd h (by simp)
        · rw [if_neg h2] at h
          by_cases h3 : d.orgUnitPath ≠ getStudentOUPath root asOf s
          · rw [if_pos h3] at h
            injection h with h
            subst h
            exact ⟨rfl, rfl, sn, d, rfl, h1, hd, not_ne_iff.1 h2, rfl⟩
          · rw [if_neg h3] at h
            exact absurd h (by simp)

/-- After the plan's device moves are carried out, no roster record
triggers a device move, as long as roster device serials are pairwise
distinct. -/
theorem deviceAction_after_apply (root : String) (asOf : DateYM)
    (students : List Student) (devices : List (String × ChromeDevice))
    (hdev : (students.filterMap Student.deviceSerial).Nodup)
    (st : Student) (hmem : st ∈ students) :
    deviceAction root asOf (applyPlanDevices root asOf students devices) st = none := by
  cases hser : st.deviceSerial with
  | none => simp only [deviceAction, hser]
  | some sn =>
    by_cases hsn : sn = ""
    · simp only [deviceAction, hser]
      rw [if_pos hsn]
    · obtain ⟨pre, post, hsplit⟩ := List.append_of_mem hmem
      subst hsplit
      have hkeys : (pre ++ st :: post).filterMap Student.deviceSerial
          = pre.filterMap Student.deviceSerial
            ++ sn :: post.filterMap Student.deviceSerial := by
        simp only [List.filterMap_append, List.filterMap_cons, hser]
      rw [hkeys] at hdev
      have hsn_notin : sn ∉ pre.filterMap Student.deviceSerial
          ++ post.filterMap Student.deviceSerial :=
        (List.nodup_cons.1 (List.nodup_middle.1 hdev)).1
      have hskip_pre : ∀ a ∈ pre.filterMap (deviceAction root asOf devices),
          a.type = .moveDevice → a.student.deviceSerial.getD "" ≠ sn := by
        intro a ha _ hkey
        obtain ⟨s2, hs2, hact2⟩ := List.mem_filterMap.1 ha
        obtain ⟨_, hstu, sn2, d2, hser2, _, _, _, _⟩ := deviceAction_inv hact2
        rw [hstu, hser2] at hkey
        simp only [Option.getD_some] at hkey
        subst hkey
        exact hsn_notin
          (List.mem_append_left _ (List.mem_filterMap.2 ⟨s2, hs2, hser2⟩))
      have hskip_post : ∀ a ∈ post.filterMap (deviceAction root asOf devices),
          a.type = .moveDevice → a.student.deviceSerial.getD "" ≠ sn := by
        intro a ha _ hkey
        obtain ⟨s2, hs2, hact2⟩ := List.mem_filterMap.1 ha
        obtain ⟨_, hstu, sn2, d2, hser2, _, _, _, _⟩ := deviceAction_inv hact2
        rw [hstu, hser2] at hkey
        simp only [Option.getD_some] at hkey
        subst hkey
        exact hsn_notin
          (List.mem_append_right _ (List.mem_filterMap.2 ⟨s2, hs2, hser2⟩))
      cases hact1 : deviceAction root asOf devices st with
      | none =>
        have hD : jsMapGet (applyPlanDevices root asOf (pre ++ st :: post) devices) sn
            = jsMapGet devices sn := by
          unfold applyPlanDevices
          simp only [List.filterMap_append, List.filterMap_cons, hact1]
          rw [applyDeviceActions_append]
          rw [applyDeviceActions_get_skip sn _ _ hskip_post]
          exact applyDeviceActions_get_skip sn _ _ hskip_pre
        simp only [deviceAction, hser] at hact1 ⊢
        rw [if_neg hsn] at hact1 ⊢
        rw [hD]
        cases hd : jsMapGet devices sn with
        | none => simp only [hd]
        | some d =>
          simp only [hd] at hact1 ⊢
          by_cases h2 : getStudentStatus asOf st ≠ .active
          · rw [if_pos h2]
          · rw [if_neg h2] at hact1 ⊢
            by_cases h3 : d.orgUnitPath ≠ getStudentOUPath root asOf st
            · rw [if_pos h3] at hact1
              exact absurd hact1 (by simp)
            · rw [if_neg h3]
      | some a0 =>
        obtain ⟨ht0, hstu0, sn0, d0, hser0, _, hd0, hstat0, htar0⟩ :=
          deviceAction_inv hact1
        rw [hser] at hser0
        injection hser0 with hsn0
        subst hsn0
        have hD : jsMapGet (applyPlanDevices root asOf (pre ++ st :: post) devices) sn
            = some { d0 with orgUnitPath := a0.targetOUPath } := by
          unfold applyPlanDevices
          simp only [List.filterMap_append, List.filterMap_cons, hact1]
          rw [applyDeviceActions_append]
          rw [applyDeviceActions_get_cons_hit _ a0 _ sn ht0
            (by rw [hstu0, hser]; rfl) hskip_post]
          rw [applyDeviceActions_get_skip sn _ _ hskip_pre]
          rw [hd0]
          rfl
        simp only [deviceAction, hser]
        rw [if_neg hsn]
        simp only [hD]
        rw [if_neg (by simp [hstat0])]
        rw [if_neg (by simp [htar0])]

/-- C1 counterexample to the unconditional claim: two active roster records
sharing one email (allowed by ingestion, which never de-duplicates emails)
each produce a `create`; after faithfully applying both, the first created
account matches — via the last-write-wins email index — the *other*
student, whose target path differs, so the second plan still contains a
move. -/
theorem planner_idempotence_counterexample :
    determineActions cfgDefault "/org/student" ⟨2024, 9⟩ [dupA, dupB]
        (applyPlanUsers "/org/student" ⟨2024, 9⟩ [dupA, dupB] [])
        (applyPlanDevices "/org/student" ⟨2024, 9⟩ [dupA, dupB] []) ≠ [] := by
  decide

/-- C1 (amended): with pairwise-distinct lowercased roster emails and
pairwise-distinct roster device serials, the planner is idempotent: running
it on snapshots that faithfully reflect every action of the first plan
(created accounts at their target paths, unsuspended, with the student's
email and `student_id` external identifier; moved accounts and devices at
their target paths; deactivated accounts suspended) yields the empty plan —
and, the planner being a pure function of its inputs (it mutates neither
snapshot), re-running it on unchanged snapshots trivially yields the
identical plan. -/
theorem planner_idempotent (cfg : Config) (root : String) (asOf : DateYM)
    (students : List Student) (users : List GoogleUser)
    (devices : List (String × ChromeDevice))
    (hcr : cfg.createOnly = false) (hmv : cfg.moveOnly = false)
    (hde : cfg.deactivateOnly = false)
    (hem : (emailKeys students).Nodup)
    (hdev : (students.filterMap Student.deviceSerial).Nodup) :
    determineActions cfg root asOf students
        (applyPlanUsers root asOf students users)
        (applyPlanDevices root asOf students devices) = []
    ∧ determineActions cfg root asOf students users devices
        = determineActions cfg root asOf students users devices := by
  refine ⟨?_, rfl⟩
  have hmode : determineActions cfg root asOf students
        (applyPlanUsers root asOf students users)
        (applyPlanDevices root asOf students devices)
      = determineActionsCore root asOf students
          (applyPlanUsers root asOf students users)
          (applyPlanDevices root asOf students devices) := by
    simp [determineActions, hcr, hmv, hde]
  rw [hmode]
  unfold determineActionsCore
  have hA : (applyPlanUsers root asOf students users).filterMap
      (userAction root asOf (studentsByEmail students)
        (studentsByStudentId students)) = [] := by
    rw [List.filterMap_eq_nil_iff]
    intro u hu
    rcases List.mem_append.1 hu with h1 | h2
    · obtain ⟨u0, _, rfl⟩ := List.mem_map.1 h1
      exact userAction_applyAccount_none root asOf _ _ u0
    · obtain ⟨a, ha, rfl⟩ := List.mem_map.1 h2
      obtain ⟨st, hst, hcr2⟩ := List.mem_filterMap.1 ha
      obtain ⟨e, he, hact, hene, _, haeq⟩ := rosterCreate_inv hcr2
      subst haeq
      exact userAction_created_none root asOf students hem st hst e he hene hact
  have hB : students.filterMap (rosterCreate root asOf
      (processedEmails (applyPlanUsers root asOf students users))) = [] := by
    rw [List.filterMap_eq_nil_iff]
    intro st hst
    exact rosterCreate_after_apply root asOf students users st hst
  have hC : students.filterMap
      (deviceAction root asOf (applyPlanDevices root asOf students devices)) = [] := by
    rw [List.filterMap_eq_nil_iff]
    intro st hst
    exact deviceAction_after_apply root asOf students devices hdev st hst
  rw [hA, hB, hC]
  rfl

/-- Closed witness for `planner_idempotent`: one active student with an
email, starting from empty snapshots — the first plan creates the account,
and the plan over the applied snapshot is empty. -/
theorem planner_idempotent_witness :
    determineActions cfgDefault "/org/student" ⟨2024, 9⟩ [johnDoeEmail]
        (applyPlanUsers "/org/student" ⟨2024, 9⟩ [johnDoeEmail] [])
        (applyPlanDevices "/org/student" ⟨2024, 9⟩ [johnDoeEmail] []) = []
    ∧ determineActions cfgDefault "/org/student" ⟨2024, 9⟩ [johnDoeEmail] [] []
        = determineActions cfgDefault "/org/student" ⟨2024, 9⟩ [johnDoeEmail] [] [] :=
  planner_idempotent cfgDefault "/org/student" ⟨2024, 9⟩ [johnDoeEmail] [] []
    rfl rfl rfl (by decide) (by decide)

end GsuiteSync
